import Mathlib

/-!
Shallow embedding of the HydroGardenApp local-first data layer
(`src/data/schemas.js`, `DataManager`, `IndexedDBManager`, `QueryEngine`,
`enhancedSyncService.js`, `BackupManager`) and proofs about the claims of
its specification.

JavaScript values are modelled by the inductive `JSValue`; objects are
association lists in key order.  JS numbers are modelled by `Int` (all
numeric constants in the embedded code are integers and no claim depends
on float behaviour).  `===` on objects/arrays is reference equality in JS;
it is modelled as `false`, which is what it evaluates to for the
separately-constructed values appearing in every theorem below.
-/

namespace HydroGarden

inductive JSValue where
  | undefined
  | null
  | bool (b : Bool)
  | num (n : Int)
  | str (s : String)
  | arr (elems : List JSValue)
  | obj (fields : List (String × JSValue))

abbrev JSFields := List (String × JSValue)

/-- `fields[key]`: property lookup (first match), `undefined` when the key
is absent. -/
def jsGet : JSFields → String → JSValue
  | [], _ => .undefined
  | kv :: rest, key => if kv.1 == key then kv.2 else jsGet rest key

/-- `value?.[key]` style access used by `getNestedValue`. -/
def JSValue.get : JSValue → String → JSValue
  | .obj fields, key => jsGet fields key
  | _, _ => .undefined

/-- JavaScript `typeof`. -/
def jsTypeofStr : JSValue → String
  | .undefined => "undefined"
  | .null => "object"
  | .bool _ => "boolean"
  | .num _ => "number"
  | .str _ => "string"
  | .arr _ => "object"
  | .obj _ => "object"

def JSValue.isArray : JSValue → Bool
  | .arr _ => true
  | _ => false

/-- JavaScript `===` (objects and arrays compare by reference, here `false`). -/
def jsStrictEq : JSValue → JSValue → Bool
  | .undefined, .undefined => true
  | .null, .null => true
  | .bool a, .bool b => a == b
  | .num a, .num b => a == b
  | .str a, .str b => a == b
  | _, _ => false

def jsTruthy : JSValue → Bool
  | .undefined => false
  | .null => false
  | .bool b => b
  | .num n => n != 0
  | .str s => s != ""
  | .arr _ => true
  | .obj _ => true

/-- Property assignment `fields[key] = v` (updates in place, else appends). -/
def setField (fields : JSFields) (key : String) (v : JSValue) : JSFields :=
  if fields.any (fun kv => kv.1 == key) then
    fields.map (fun kv => if kv.1 == key then (key, v) else kv)
  else fields ++ [(key, v)]

/-- Object spread `·...base, ...extra·`: later keys override in place, new keys append. -/
def spreadMerge (base extra : JSFields) : JSFields :=
  extra.foldl (fun acc kv => setField acc kv.1 kv.2) base

/-! ## Schema registry (`src/data/schemas.js`) -/

inductive JSType where
  | string | number | boolean | array | object
deriving DecidableEq, Repr

inductive FieldError where
  | required
  | wrongType (expected : JSType)
  | minLength (m got : Nat)
  | maxLength (m got : Nat)
  | patternMismatch
  | notInEnum
  | minValue (m got : Int)
  | maxValue (m got : Int)
  | minItems (m got : Nat)
  | maxItems (m got : Nat)
  | unknownField (name : String)
deriving DecidableEq, Repr

/-- One level of nested `properties` declaration (as written in the source
schemas, e.g. `careSchedule.properties.watering`); `validateField` never
reads these, exactly as in the source. -/
structure SubSchema where
  type : Option JSType := none
  required : Bool := false
  min : Option Int := none
  max : Option Int := none
  enum : Option (List String) := none

structure FieldSchema where
  type : Option JSType := none
  required : Bool := false
  minLength : Option Nat := none
  maxLength : Option Nat := none
  pattern : Option (String → Bool) := none
  enum : Option (List String) := none
  min : Option Int := none
  max : Option Int := none
  minItems : Option Nat := none
  maxItems : Option Nat := none
  properties : List (String × SubSchema) := []

/-- `value === undefined || value === null || value === ''`. -/
def isEmptyValue : JSValue → Bool
  | .undefined => true
  | .null => true
  | .str s => s == ""
  | _ => false

/-- `validateField` from `schemas.js` (lines 7-71).  `schema.minLength && ...`
is a JS truthiness test (`0` and `undefined` both falsy); `schema.min !==
undefined` is a presence test; both are mirrored. -/
def validateField (value : JSValue) (schema : FieldSchema) : List FieldError :=
  if schema.required ∧ isEmptyValue value then [.required]
  else if ¬schema.required ∧ isEmptyValue value then []
  else
    let typeErrors : List FieldError :=
      match schema.type with
      | some .string => if jsTypeofStr value ≠ "string" then [.wrongType .string] else []
      | some .number => if jsTypeofStr value ≠ "number" then [.wrongType .number] else []
      | some .boolean => if jsTypeofStr value ≠ "boolean" then [.wrongType .boolean] else []
      | some .array => if ¬value.isArray then [.wrongType .array] else []
      | some .object => if jsTypeofStr value ≠ "object" ∨ value.isArray then [.wrongType .object] else []
      | none => []
    let stringErrors : List FieldError :=
      match schema.type, value with
      | some .string, .str s =>
        (match schema.minLength with
          | some m => if m ≠ 0 ∧ s.length < m then [.minLength m s.length] else []
          | none => []) ++
        (match schema.maxLength with
          | some m => if m ≠ 0 ∧ s.length > m then [.maxLength m s.length] else []
          | none => []) ++
        (match schema.pattern with
          | some p => if ¬p s then [.patternMismatch] else []
          | none => []) ++
        (match schema.enum with
          | some es => if ¬es.contains s then [.notInEnum] else []
          | none => [])
      | _, _ => []
    let numberErrors : List FieldError :=
      match schema.type, value with
      | some .number, .num n =>
        (match schema.min with
          | some m => if n < m then [.minValue m n] else []
          | none => []) ++
        (match schema.max with
          | some m => if n > m then [.maxValue m n] else []
          | none => [])
      | _, _ => []
    let arrayErrors : List FieldError :=
      match schema.type, value with
      | some .array, .arr xs =>
        (match schema.minItems with
          | some m => if m ≠ 0 ∧ xs.length < m then [.minItems m xs.length] else []
          | none => []) ++
        (match schema.maxItems with
          | some m => if m ≠ 0 ∧ xs.length > m then [.maxItems m xs.length] else []
          | none => [])
      | _, _ => []
    typeErrors ++ stringErrors ++ numberErrors ++ arrayErrors

structure EntitySchema where
  name : String
  properties : List (String × FieldSchema)
  allowAdditionalProperties : Bool := false

/-- `validateSchema` from `schemas.js` (lines 74-97): per-field errors plus
unknown-field errors grouped under `_unknown`; `none` when no errors. -/
def validateSchema (data : JSFields) (schema : EntitySchema) :
    Option (List (String × List FieldError)) :=
  let fieldErrors := schema.properties.filterMap (fun kv =>
    let errs := validateField (jsGet data kv.1) kv.2
    if errs.isEmpty then none else some (kv.1, errs))
  let unknownErrs := data.filterMap (fun kv =>
    if (schema.properties.find? (fun p => p.1 == kv.1)).isNone ∧
        ¬schema.allowAdditionalProperties
    then some (FieldError.unknownField kv.1) else none)
  let errors := fieldErrors ++
    (if unknownErrs.isEmpty then [] else [("_unknown", unknownErrs)])
  if errors.isEmpty then none else some errors

/-- Character class `[a-zA-Z0-9_-]`. -/
def isIdChar (c : Char) : Bool := c.isAlphanum ∨ c = '_' ∨ c = '-'

def startsWithL : List Char → List Char → Bool
  | [], _ => true
  | _ :: _, [] => false
  | n :: ns, h :: hs => n = h ∧ startsWithL ns hs

/-- `/^<pre>[a-zA-Z0-9_-]+$/`. -/
def prefixIdPat (pre : String) (s : String) : Bool :=
  startsWithL pre.toList s.toList ∧
  (s.toList.drop pre.toList.length).length ≥ 1 ∧
  (s.toList.drop pre.toList.length).all isIdChar

/-- Matches a template where `D` stands for one ASCII digit and every other
character stands for itself. -/
def matchShape : List Char → List Char → Bool
  | [], [] => true
  | 'D' :: ts, c :: cs => c.isDigit ∧ matchShape ts cs
  | t :: ts, c :: cs => t = c ∧ matchShape ts cs
  | _, _ => false

/-- `/^\d·4·-\d·2·-\d·2·$/`. -/
def datePat (s : String) : Bool := matchShape "DDDD-DD-DD".toList s.toList

/-- `/^\d·4·-\d·2·-\d·2·T\d·2·:\d·2·:\d·2·\.\d·3·Z$/`. -/
def isoPat (s : String) : Bool := matchShape "DDDD-DD-DDTDD:DD:DD.DDDZ".toList s.toList

/-- `/^settings_user$/`. -/
def settingsIdPat (s : String) : Bool := s == "settings_user"

def PlantSchema : EntitySchema where
  name := "Plant"
  properties := [
    ("id", { type := some .string, required := true, pattern := some (prefixIdPat "plant_") }),
    ("name", { type := some .string, required := true, minLength := some 1, maxLength := some 100 }),
    ("status", { type := some .string, required := true,
                 enum := some ["בריא", "דורש השקיה", "דורש דישון", "חולה", "חדש", "ארכיון"] }),
    ("image", { type := some .string, maxLength := some 10 }),
    ("plantType", { type := some .string,
                    enum := some ["עגבנייה", "בזיליקום", "חסה", "נענע", "פלפל", "מלפפון", "אחר"] }),
    ("plantedDate", { type := some .string, pattern := some datePat }),
    ("location", { type := some .string, maxLength := some 50 }),
    ("notes", { type := some .string, maxLength := some 500 }),
    ("careSchedule", { type := some .object, properties := [
        ("watering", { type := some .number, min := some 1, max := some 30 }),
        ("fertilizing", { type := some .number, min := some 1, max := some 90 }),
        ("pruning", { type := some .number, min := some 1, max := some 180 }) ] }),
    ("measurements", { type := some .array, maxItems := some 1000 }),
    ("createdAt", { type := some .string, required := true, pattern := some isoPat }),
    ("updatedAt", { type := some .string, required := true, pattern := some isoPat }) ]

def CalendarEventSchema : EntitySchema where
  name := "CalendarEvent"
  properties := [
    ("id", { type := some .string, required := true, pattern := some (prefixIdPat "event_") }),
    ("date", { type := some .string, required := true, pattern := some datePat }),
    ("action", { type := some .string, required := true,
                 enum := some ["השקיה", "גיזום", "דישון", "בדיקת pH", "החלפת מים", "בדיקה כללית"] }),
    ("icon", { type := some .string, maxLength := some 10 }),
    ("plantId", { type := some .string, pattern := some (prefixIdPat "plant_") }),
    ("completed", { type := some .boolean }),
    ("completedAt", { type := some .string, pattern := some isoPat }),
    ("notes", { type := some .string, maxLength := some 300 }),
    ("reminder", { type := some .boolean }),
    ("recurring", { type := some .object, properties := [
        ("enabled", { type := some .boolean, required := true }),
        ("interval", { type := some .number, min := some 1, max := some 365 }),
        ("unit", { type := some .string, enum := some ["days", "weeks", "months"] }) ] }),
    ("createdAt", { type := some .string, required := true, pattern := some isoPat }),
    ("updatedAt", { type := some .string, required := true, pattern := some isoPat }) ]

def CommunityPostSchema : EntitySchema where
  name := "CommunityPost"
  properties := [
    ("id", { type := some .string, required := true, pattern := some (prefixIdPat "post_") }),
    ("user", { type := some .string, required := true, minLength := some 1, maxLength := some 50 }),
    ("text", { type := some .string, required := true, minLength := some 1, maxLength := some 1000 }),
    ("image", { type := some .string, maxLength := some 10 }),
    ("imageUrl", { type := some .string, maxLength := some 500 }),
    ("tags", { type := some .array, maxItems := some 10 }),
    ("likes", { type := some .number, min := some 0 }),
    ("comments", { type := some .array, maxItems := some 100 }),
    ("plantId", { type := some .string, pattern := some (prefixIdPat "plant_") }),
    ("createdAt", { type := some .string, required := true, pattern := some isoPat }),
    ("updatedAt", { type := some .string, required := true, pattern := some isoPat }) ]

def notifFieldSchema : FieldSchema :=
  { type := some .string, required := true,
    enum := some ["הכל", "רק השקיה", "רק דישון", "ללא התראות"] }

def SettingsSchema : EntitySchema where
  name := "Settings"
  properties := [
    ("id", { type := some .string, required := true, pattern := some settingsIdPat }),
    ("name", { type := some .string, required := true, minLength := some 1, maxLength := some 100 }),
    ("notif", notifFieldSchema),
    ("lang", { type := some .string, required := true, enum := some ["עברית", "English"] }),
    ("units", { type := some .string, required := true,
                enum := some ["מטרי (מ\"ל, ס\"מ)", "אמריקאי (Oz, Inch)"] }),
    ("theme", { type := some .string, enum := some ["light", "dark", "auto"] }),
    ("notifications", { type := some .object, properties := [
        ("watering", { type := some .boolean }),
        ("fertilizing", { type := some .boolean }),
        ("pruning", { type := some .boolean }),
        ("daily", { type := some .boolean }) ] }),
    ("privacy", { type := some .object, properties := [
        ("shareData", { type := some .boolean }),
        ("showInCommunity", { type := some .boolean }),
        ("allowAnalytics", { type := some .boolean }) ] }),
    ("createdAt", { type := some .string, required := true, pattern := some isoPat }),
    ("updatedAt", { type := some .string, required := true, pattern := some isoPat }) ]

inductive EntityType where
  | Plant | CalendarEvent | CommunityPost | Settings
deriving DecidableEq, Repr

def SCHEMAS : EntityType → EntitySchema
  | .Plant => PlantSchema
  | .CalendarEvent => CalendarEventSchema
  | .CommunityPost => CommunityPostSchema
  | .Settings => SettingsSchema

def validateEntity (entity : JSFields) (entityType : EntityType) :
    Option (List (String × List FieldError)) :=
  validateSchema entity (SCHEMAS entityType)

/-- Per-type default objects built by `createEntity`, in source spread order.
`genId` and `now` stand for the `generateId(prefix)` and
`new Date().toISOString()` calls. -/
def entityDefaults (entityType : EntityType) (genId now : String) : JSFields :=
  match entityType with
  | .Plant =>
    [("createdAt", .str now), ("updatedAt", .str now),
     ("id", .str genId), ("name", .str ""), ("status", .str "חדש"), ("image", .str "🌱")]
  | .CalendarEvent =>
    [("createdAt", .str now), ("updatedAt", .str now),
     ("id", .str genId), ("date", .str (String.mk (now.toList.take 10))), ("action", .str "השקיה"),
     ("icon", .str "💧"), ("completed", .bool false)]
  | .CommunityPost =>
    [("createdAt", .str now), ("updatedAt", .str now),
     ("id", .str genId), ("user", .str "אתה"), ("text", .str ""), ("image", .str ""),
     ("likes", .num 0), ("comments", .arr [])]
  | .Settings =>
    [("createdAt", .str now), ("updatedAt", .str now),
     ("id", .str "settings_user"), ("name", .str "משתמש"), ("notif", .str "הכל"),
     ("lang", .str "עברית"), ("units", .str "מטרי (מ\"ל, ס\"מ)"), ("theme", .str "light"),
     ("notifications", .obj [("watering", .bool true), ("fertilizing", .bool true),
                             ("pruning", .bool true), ("daily", .bool false)]),
     ("privacy", .obj [("shareData", .bool false), ("showInCommunity", .bool true),
                       ("allowAnalytics", .bool true)])]

/-- `createEntity` from `schemas.js` (lines 456-532): defaults overridden by
`data`, then validated; throws on validation errors. -/
def createEntity (entityType : EntityType) (data : JSFields) (genId now : String) :
    Except (List (String × List FieldError)) JSFields :=
  let entity := spreadMerge (entityDefaults entityType genId now) data
  match validateEntity entity entityType with
  | some errors => .error errors
  | none => .ok entity

/-- `updateEntity` from `schemas.js` (lines 535-549). -/
def updateEntity (entity updates : JSFields) (entityType : EntityType) (now : String) :
    Except (List (String × List FieldError)) JSFields :=
  let updated := setField (spreadMerge entity updates) "updatedAt" (.str now)
  match validateEntity updated entityType with
  | some errors => .error errors
  | none => .ok updated

/-! ## Data Manager plant CRUD (localStorage path of `DataManager`) -/

abbrev Entity := JSFields

inductive DMError where
  | validation (errors : List (String × List FieldError))
  | notFound (id : String)
deriving DecidableEq, Repr

/-- `DataManager.createPlant`: build+validate via `createEntity`, then
`plants.unshift(plant)`.  On a validation error the throw happens before
any write, so the collection is returned unchanged. -/
def createPlant (plantData : Entity) (plants : List Entity) (genId now : String) :
    Except DMError Entity × List Entity :=
  match createEntity .Plant plantData genId now with
  | .error e => (.error (.validation e), plants)
  | .ok plant => (.ok plant, plant :: plants)

/-- `plants.find(p => p.id === id)`. -/
def findPlant (plants : List Entity) (id : String) : Option Entity :=
  plants.find? (fun p => jsStrictEq (jsGet p "id") (.str id))

/-- `plants[findIndex] = updated` (first matching index only). -/
def replaceFirstPlant (plants : List Entity) (id : String) (updated : Entity) : List Entity :=
  match plants with
  | [] => []
  | p :: rest =>
    if jsStrictEq (jsGet p "id") (.str id) then updated :: rest
    else p :: replaceFirstPlant rest id updated

/-- `DataManager.updatePlant` (part_003 lines 162-184): throws not-found when
no plant has the id, otherwise `updateEntity` then replace in place. -/
def updatePlant (plants : List Entity) (id : String) (updates : Entity) (now : String) :
    Except DMError Entity × List Entity :=
  match findPlant plants id with
  | none => (.error (.notFound id), plants)
  | some existing =>
    match updateEntity existing updates .Plant now with
    | .error e => (.error (.validation e), plants)
    | .ok updated => (.ok updated, replaceFirstPlant plants id updated)

/-- `DataManager.deletePlant` (part_003 lines 186-198): filters the collection
and returns `true` unconditionally — there is no existence check. -/
def deletePlant (plants : List Entity) (id : String) :
    Except DMError Bool × List Entity :=
  (.ok true, plants.filter (fun p => ¬jsStrictEq (jsGet p "id") (.str id)))

/-! ## JSON serialization (`JSON.stringify`)

Needed by the IndexedDB compression layer and the backup checksum layer.
`JSON.stringify` escapes only `"` and `\` and control characters below
U+0020; all other characters (including non-Latin1 ones) pass through
verbatim.  `undefined` values serialize to nothing (keys omitted inside
objects, `null` inside arrays, no output at top level). -/

def lbrace : Char := '\x7b'

def rbrace : Char := '\x7d'

def hexDigit (n : Nat) : Char :=
  if n < 10 then Char.ofNat ('0'.toNat + n) else Char.ofNat ('a'.toNat + (n - 10))

def escapeChar (c : Char) : List Char :=
  if c = '"' then ['\\', '"']
  else if c = '\\' then ['\\', '\\']
  else if c = '\x08' then ['\\', 'b']
  else if c = '\x09' then ['\\', 't']
  else if c = '\x0a' then ['\\', 'n']
  else if c = '\x0c' then ['\\', 'f']
  else if c = '\x0d' then ['\\', 'r']
  else if c.toNat < 0x20 then
    ['\\', 'u', '0', '0', hexDigit (c.toNat / 16), hexDigit (c.toNat % 16)]
  else [c]

def quoteJS (s : String) : List Char :=
  '"' :: s.toList.foldr (fun c acc => escapeChar c ++ acc) ['"']

def joinComma : List (List Char) → List Char
  | [] => []
  | [p] => p
  | p :: q :: rest => p ++ ',' :: joinComma (q :: rest)

mutual

/-- `JSON.stringify` (`undefined` serializes to nothing: keys omitted inside
objects, `null` inside arrays, no output at top level). -/
def jstringifyL : JSValue → Option (List Char)
  | .undefined => none
  | .null => some "null".toList
  | .bool true => some "true".toList
  | .bool false => some "false".toList
  | .num n => some (Int.repr n).toList
  | .str s => some (quoteJS s)
  | .arr xs => some ('[' :: joinComma (jstringifyArr xs) ++ [']'])
  | .obj fs => some (lbrace :: joinComma (jstringifyProps fs) ++ [rbrace])

def jstringifyArr : List JSValue → List (List Char)
  | [] => []
  | x :: xs => ((jstringifyL x).getD "null".toList) :: jstringifyArr xs

def jstringifyProps : List (String × JSValue) → List (List Char)
  | [] => []
  | kv :: fs =>
    match jstringifyL kv.2 with
    | some sv => (quoteJS kv.1 ++ ':' :: sv) :: jstringifyProps fs
    | none => jstringifyProps fs

end

/-- `JSON.stringify` of an object; the `.obj` branch of `jstringifyL` always
returns `some`, so the default is never taken. -/
def stringifyFields (fs : JSFields) : List Char :=
  (jstringifyL (.obj fs)).getD []

/-! ## IndexedDB transparent compression (`IndexedDBManager.js` lines 108-155) -/

/-- `\n`, `\r`, U+2028, U+2029 — the characters `.` does not match in a
JavaScript regex without the `s` flag. -/
def isLineTerm (c : Char) : Bool :=
  c = '\x0a' ∨ c = '\x0d' ∨ c = ' ' ∨ c = ' '

def natDigits (n : Nat) : List Char := (Nat.repr n).toList

/-- A finished run of `n` copies of `c`: the regex `(.)\1+` rewrites it to
the character plus its decimal length when `n ≥ 2` and `.` can match `c`;
otherwise the run is left as it was. -/
def rleEmit (c : Char) (n : Nat) : List Char :=
  if ¬isLineTerm c ∧ n ≥ 2 then c :: natDigits n else List.replicate n c

def rleGo (c : Char) (n : Nat) : List Char → List Char
  | [] => rleEmit c n
  | d :: rest => if d = c then rleGo c (n + 1) rest else rleEmit c n ++ rleGo d 1 rest

/-- `str.replace(/(.)\1+/g, (match, char) => char + match.length)`:
each maximal run (length ≥ 2) of a non-line-terminator character is
replaced by the character followed by the decimal run length. -/
def simpleCompressL : List Char → List Char
  | [] => []
  | c :: rest => rleGo c 1 rest

def parseNat (ds : List Char) : Nat :=
  ds.foldl (fun acc c => acc * 10 + (c.toNat - '0'.toNat)) 0

/-- Fuel-bounded body of `simpleDecompress`; the fuel, initialised to the
list length (which bounds the number of steps), keeps the recursion
structural. -/
def simpleDecompressFuel : Nat → List Char → List Char
  | _, [] => []
  | _, [c] => [c]
  | 0, l => l
  | fuel+1, c :: d :: rest =>
    if ¬isLineTerm c ∧ d.isDigit then
      List.replicate (parseNat (d :: rest.takeWhile Char.isDigit)) c ++
        simpleDecompressFuel fuel (rest.dropWhile Char.isDigit)
    else c :: simpleDecompressFuel fuel (d :: rest)

/-- `str.replace(/(.)\d+/g, (match, char) => char.repeat(parseInt(match.slice(1))))`:
leftmost non-line-terminator character followed by a maximal digit run is
replaced by that character repeated the decoded number of times. -/
def simpleDecompressL (l : List Char) : List Char := simpleDecompressFuel l.length l

def simpleCompress (s : String) : String := String.mk (simpleCompressL s.toList)

def simpleDecompress (s : String) : String := String.mk (simpleDecompressL s.toList)

/-- The stored form of an entity: either the original value or the
`_compressed` wrapper object. -/
inductive StoredValue where
  | plain (v : JSFields)
  | compressed (data : List Char) (originalSize compressedSize : Nat)

/-- `IndexedDBManager.compress` (lines 108-127): entities whose
serialization is at or above the 1000-character threshold are wrapped,
storing the run-length-encoded serialization. -/
def compress (entity : JSFields) : StoredValue :=
  let str := stringifyFields entity
  if str.length < 1000 then .plain entity
  else .compressed (simpleCompressL str) str.length (simpleCompressL str).length

/-- The serialization of the value `IndexedDBManager.decompress` (lines
129-139) reads back: for an uncompressed record the record itself, for a
compressed record the string handed to `JSON.parse`. -/
def decompressedSerialization : StoredValue → List Char
  | .plain v => stringifyFields v
  | .compressed data _ _ => simpleDecompressL data

/-! ## Query engine (`QueryEngine.js`) -/

def toLowerStr (s : String) : String := String.mk (s.toList.map Char.toLower)

def containsSub (needle : List Char) : List Char → Bool
  | [] => needle.isEmpty
  | h :: hs => startsWithL needle (h :: hs) ∨ containsSub needle hs

/-- JavaScript string coercion `value.toString()` for the values handled by
the query engine. -/
def jsToString : JSValue → String
  | .undefined => "undefined"
  | .null => "null"
  | .bool true => "true"
  | .bool false => "false"
  | .num n => Int.repr n
  | .str s => s
  | .arr _ => ""
  | .obj _ => "[object Object]"

def isUndefined : JSValue → Bool
  | .undefined => true
  | _ => false

/-- JavaScript `<` restricted to same-type number/string operands (the only
comparisons exercised by this data layer; mixed-type coercions are out of
scope and modelled as `false`). -/
def jsLt : JSValue → JSValue → Bool
  | .num a, .num b => a < b
  | .str a, .str b => a < b
  | _, _ => false

def jsLe : JSValue → JSValue → Bool
  | .num a, .num b => a ≤ b
  | .str a, .str b => a ≤ b
  | _, _ => false

/-- `path.split('.')` on the character list. -/
def splitPath : List Char → List (List Char)
  | [] => [[]]
  | c :: rest =>
    if c = '.' then [] :: splitPath rest
    else match splitPath rest with
      | [] => [[c]]
      | p :: ps => (c :: p) :: ps

/-- `getNestedValue (obj, path)`: `path.split('.').reduce((cur, key) => cur?.[key], obj)`. -/
def getNestedValue (item : JSValue) (path : String) : JSValue :=
  (splitPath path.toList).foldl (fun cur key => cur.get (String.mk key)) item

/-- `new RegExp(pat, opts).test(value)`, modelled for literal (metacharacter
free) patterns as a substring test, case-insensitive when `i` is among the
flags; no claim depends on richer regex syntax. -/
def regexTest (pat opts : String) (value : JSValue) : Bool :=
  let hay := jsToString value
  if opts.toList.contains 'i' then
    containsSub (toLowerStr pat).toList (toLowerStr hay).toList
  else containsSub pat.toList hay.toList

/-- `QueryEngine.matchesFilter` (lines 433-457), operator checks in source
order; a non-null non-array object with none of the operator keys falls
through to `return false`. -/
def matchesFilter (value fltr : JSValue) : Bool :=
  match fltr with
  | .obj f =>
    if ¬isUndefined (jsGet f "$eq") then jsStrictEq value (jsGet f "$eq")
    else if ¬isUndefined (jsGet f "$ne") then ¬jsStrictEq value (jsGet f "$ne")
    else if ¬isUndefined (jsGet f "$gt") then jsLt (jsGet f "$gt") value
    else if ¬isUndefined (jsGet f "$gte") then jsLe (jsGet f "$gte") value
    else if ¬isUndefined (jsGet f "$lt") then jsLt value (jsGet f "$lt")
    else if ¬isUndefined (jsGet f "$lte") then jsLe value (jsGet f "$lte")
    else if ¬isUndefined (jsGet f "$in") then
      match jsGet f "$in" with
      | .arr xs => xs.any (fun x => jsStrictEq x value)
      | _ => false
    else if ¬isUndefined (jsGet f "$nin") then
      match jsGet f "$nin" with
      | .arr xs => ¬xs.any (fun x => jsStrictEq x value)
      | _ => false
    else if ¬isUndefined (jsGet f "$regex") then
      regexTest (jsToString (jsGet f "$regex"))
        (if jsTruthy (jsGet f "$options") then jsToString (jsGet f "$options") else "i") value
    else if ¬isUndefined (jsGet f "$exists") then
      if jsTruthy (jsGet f "$exists") then ¬isUndefined value else isUndefined value
    else false
  | fltr => jsStrictEq value fltr

/-- `QueryEngine.applyFilters` (lines 422-431). -/
def applyFilters (data : List JSValue) (filters : JSFields) : List JSValue :=
  data.filter (fun item =>
    filters.all (fun kv => matchesFilter (getNestedValue item kv.1) kv.2))

/-- `QueryEngine.applySearch` (lines 459-468). -/
def applySearch (data : List JSValue) (searchTerm : String) (searchFields : List String) :
    List JSValue :=
  let searchLower := toLowerStr searchTerm
  data.filter (fun item => searchFields.any (fun field =>
    let fv := getNestedValue item field
    jsTruthy fv ∧ containsSub searchLower.toList (toLowerStr (jsToString fv)).toList))

structure SortSpec where
  field : String
  direction : String := "asc"

/-- `QueryEngine.compareSortValues` (lines 486-497). -/
def compareSortValues (a b : JSValue) (sort : SortSpec) : Int :=
  let aValue := getNestedValue a sort.field
  let bValue := getNestedValue b sort.field
  let comparison : Int := if jsLt aValue bValue then -1 else if jsLt bValue aValue then 1 else 0
  if sort.direction = "desc" then -comparison else comparison

inductive SortArg where
  | one (s : SortSpec)
  | many (l : List SortSpec)

def multiCompare (a b : JSValue) : List SortSpec → Int
  | [] => 0
  | s :: rest =>
    if compareSortValues a b s ≠ 0 then compareSortValues a b s else multiCompare a b rest

def insertSorted (le : α → α → Bool) (x : α) : List α → List α
  | [] => [x]
  | y :: ys => if le x y then x :: y :: ys else y :: insertSorted le x ys

/-- Comparator sort modelling `Array.prototype.sort`; the claims depend only
on it being a length-preserving reordering. -/
def sortByCmp (le : α → α → Bool) (l : List α) : List α := l.foldr (insertSorted le) []

/-- `QueryEngine.applySort` (lines 470-484). -/
def applySort (data : List JSValue) : SortArg → List JSValue
  | .many specs => sortByCmp (fun a b => multiCompare a b specs ≤ 0) data
  | .one s => sortByCmp (fun a b => compareSortValues a b s ≤ 0) data

/-- `QueryEngine.applyPagination` (lines 499-503):
`data.slice(start, limit ? start + limit : data.length)`. -/
def applyPagination (data : List JSValue) (offset : Nat) (limit : Option Nat) : List JSValue :=
  let endIdx := match limit with
    | some l => if l ≠ 0 then offset + l else data.length
    | none => data.length
  (data.take endIdx).drop offset

structure QueryOptions where
  filter : JSFields := []
  sort : Option SortArg := none
  limit : Option Nat := none
  offset : Nat := 0
  search : Option String := none
  searchFields : List String := []

structure QueryResult where
  data : List JSValue
  totalCount : Nat
  hasMore : Bool
  page : Nat
  totalPages : Nat

/-- `QueryEngine.query` (lines 50-121): filter → search → record total count
→ sort → paginate; `limit ? _ : _` is a JS truthiness test so `limit: 0`
takes the falsy branch, while the pagination trigger is the null test
`limit !== null || offset > 0`.  The cache, facet and aggregation
decorations are orthogonal to the claims and omitted. -/
def filterStage (snapshot : List JSValue) (q : QueryOptions) : List JSValue :=
  if q.filter.length > 0 then applyFilters snapshot q.filter else snapshot

def searchStage (l : List JSValue) (q : QueryOptions) : List JSValue :=
  match q.search with
  | some s => if s ≠ "" ∧ q.searchFields.length > 0 then applySearch l s q.searchFields else l
  | none => l

def query (snapshot : List JSValue) (q : QueryOptions) : QueryResult :=
  let d2 := searchStage (filterStage snapshot q) q
  let totalCount := d2.length
  let d3 := match q.sort with
    | some sa => applySort d2 sa
    | none => d2
  let d4 := if q.limit.isSome ∨ q.offset > 0 then applyPagination d3 q.offset q.limit else d3
  { data := d4
    totalCount := totalCount
    hasMore := match q.limit with
      | some l => if l ≠ 0 then decide (q.offset + l < totalCount) else false
      | none => false
    page := match q.limit with
      | some l => if l ≠ 0 then q.offset / l + 1 else 1
      | none => 1
    totalPages := match q.limit with
      | some l => if l ≠ 0 then (totalCount + l - 1) / l else 1
      | none => 1 }

/-! ## Sync engine (`enhancedSyncService.js`)

The service is modelled as a state-transition system over
`SyncState = (queue, conflicts)`.  Network delivery is a parameter
`deliver : SyncItem → ServerResponse` (the outcome of `makeRequest`:
success, a reported conflict, or a thrown error — network failure,
timeout, non-2xx status, or `success:false` all land in the `catch`).
Wall-clock reads collapse to a `now : String` parameter.  The recursion
`syncSingleItem → handleConflict → syncSingleItem` is bounded by a fuel
parameter (JavaScript would loop just the same if the server kept
conflicting); every theorem below supplies ample fuel.  `handleConflict`
is inlined in the conflict branch to keep the recursion structural. -/

def maxRetries : Nat := 3

def maxQueueSize : Nat := 500

structure SyncItem where
  id : String
  entityType : String
  operation : String
  data : JSFields
  timestamp : String
  retryCount : Nat := 0
  lastAttempt : Option String := none
  clientId : String := "client"
  processed : Bool := false

/-- An element of the `sync_conflicts` store.  `addToConflicts(conflict)`
pushes whatever object it is handed: the conflict record built by
`handleConflict`, or — on the max-retries path — the bare sync item
(`addToConflicts(syncItem, 'max_retries_exceeded')` has a second argument,
but `addToConflicts` declares only one parameter, so the reason string is
discarded).  The `generateSyncId()` value of a conflict record is not
modelled. -/
inductive ConflictEntry where
  | record (localItem : SyncItem) (serverData : JSFields)
      (conflictType : String) (timestamp : String) (resolved : Bool)
  | rawItem (item : SyncItem)

inductive ServerResponse where
  | success (data : Option JSFields)
  | conflict (conflictType : String) (serverData : JSFields)
  | failure

structure SyncState where
  queue : List SyncItem
  conflicts : List ConflictEntry

/-- The `(entityType, data.id, operation)` triple compared by the
deduplication filter in `addToQueue`. -/
def sameTriple (a b : SyncItem) : Bool :=
  a.entityType == b.entityType ∧
  jsStrictEq (jsGet a.data "id") (jsGet b.data "id") ∧
  a.operation == b.operation

/-- `EnhancedSyncService.addToQueue` (lines 355-381): drop queued items with
the same triple, append the new item, then evict from the front past the
queue cap. -/
def addToQueue (queue : List SyncItem) (syncItem : SyncItem) : List SyncItem :=
  let filtered := queue.filter (fun item => ¬sameTriple item syncItem)
  let filtered := filtered ++ [syncItem]
  if filtered.length > maxQueueSize then
    filtered.drop (filtered.length - maxQueueSize)
  else filtered

/-- `EnhancedSyncService.mergeConflictingData` (lines 236-252). -/
def mergeConflictingData (localData serverData : JSFields) : JSFields :=
  let merged := ["notes", "status", "name"].foldl (fun m field =>
    if ¬isUndefined (jsGet localData field) ∧
        ¬jsStrictEq (jsGet localData field) (jsGet serverData field)
    then setField m field (jsGet localData field) else m) serverData
  setField merged "updatedAt" (jsGet localData "updatedAt")

/-- The item resubmitted by `handleConflict` after a successful automatic
field-merge: the original item with merged data and a restamped
timestamp. -/
def resolvedItemOf (item : SyncItem) (serverData : JSFields) (now : String) : SyncItem :=
  { item with data := mergeConflictingData item.data serverData, timestamp := now }

/-- `EnhancedSyncService.attemptAutoResolution` (lines 198-234): `some`
resolved data, or `none` when the conflict type has no strategy.
ISO-8601 timestamps compare chronologically as strings, which models the
`Date` comparison of the timestamp strategy. -/
def attemptAutoResolution (localItem : SyncItem) (serverData : JSFields)
    (conflictType : String) : Option JSFields :=
  if conflictType = "timestamp_conflict" then
    some (if jsLt (jsGet serverData "updatedAt") (.str localItem.timestamp)
          then localItem.data else serverData)
  else if conflictType = "field_conflict" then
    some (mergeConflictingData localItem.data serverData)
  else if conflictType = "deletion_conflict" then
    some localItem.data
  else none

/-- `EnhancedSyncService.syncSingleItem` (lines 80-118) with
`handleConflict` (lines 164-195) inlined in the conflict branch.  Returns
the reported success flag, the item with its in-place mutations
(`retryCount`, `lastAttempt`), and the updated sync state. -/
def syncSingleItem (fuel : Nat) (deliver : SyncItem → ServerResponse) (now : String)
    (syncItem : SyncItem) (st : SyncState) : Bool × SyncItem × SyncState :=
  match fuel with
  | 0 => (false, syncItem, st)
  | fuel + 1 =>
    match deliver syncItem with
    | .success _ => (true, syncItem, st)
    | .conflict conflictType serverData =>
      let conflict := ConflictEntry.record syncItem serverData conflictType now false
      let st2 :=
        match attemptAutoResolution syncItem serverData conflictType with
        | some resolvedData =>
          let resolvedItem := { syncItem with data := resolvedData, timestamp := now }
          let r := syncSingleItem fuel deliver now resolvedItem st
          if r.1 then r.2.2
          else { r.2.2 with conflicts := r.2.2.conflicts ++ [conflict] }
        | none => { st with conflicts := st.conflicts ++ [conflict] }
      (false, syncItem, st2)
    | .failure =>
      let item := { syncItem with retryCount := syncItem.retryCount + 1, lastAttempt := some now }
      if item.retryCount < maxRetries then
        (false, item, { st with queue := addToQueue st.queue item })
      else
        (false, item, { st with conflicts := st.conflicts ++ [.rawItem item] })

/-- `EnhancedSyncService.syncSingleItemWithDelay` (lines 315-327): marks the
item `processed` on success (the backoff delay has no effect on state). -/
def syncSingleItemWithDelay (fuel : Nat) (deliver : SyncItem → ServerResponse) (now : String)
    (item : SyncItem) (st : SyncState) : Bool × SyncItem × SyncState :=
  let r := syncSingleItem fuel deliver now item st
  (r.1, if r.1 then { r.2.1 with processed := true } else r.2.1, r.2.2)

def processItems (fuel : Nat) (deliver : SyncItem → ServerResponse) (now : String) :
    List SyncItem → SyncState → List SyncItem × SyncState
  | [], st => ([], st)
  | item :: rest, st =>
    let r := syncSingleItemWithDelay fuel deliver now item st
    let rec2 := processItems fuel deliver now rest r.2.2
    (r.2.1 :: rec2.1, rec2.2)

/-- `EnhancedSyncService.calculateRetryDelay` (lines 330-333). -/
def calculateRetryDelay (retryCount : Nat) : Nat :=
  if retryCount = 0 then 0 else min (1000 * 2 ^ (retryCount - 1)) 30000

/-- `EnhancedSyncService.processSyncQueue` (lines 255-312): read the queue,
sort oldest-first, run every item through `syncSingleItemWithDelay`
(batching only interleaves delivery, which the sequential model collapses),
then persist `queue.filter(item => item.retryCount >= maxRetries ||
!item.processed)` — overwriting whatever `addToQueue` wrote mid-drain,
exactly as the final `saveQueue(remainingQueue)` does. -/
def processSyncQueue (fuel : Nat) (deliver : SyncItem → ServerResponse) (now : String)
    (st : SyncState) : SyncState :=
  if st.queue.isEmpty then st
  else
    let sorted := sortByCmp (fun a b : SyncItem => a.timestamp ≤ b.timestamp) st.queue
    let r := processItems fuel deliver now sorted st
    let remaining := r.1.filter (fun item => item.retryCount ≥ maxRetries ∨ ¬item.processed)
    { r.2 with queue := remaining }

/-! ## Backup manager (`part_004`) -/

/-- JS `ToInt32`. -/
def toInt32 (x : Int) : Int := (x + 2 ^ 31) % 2 ^ 32 - 2 ^ 31

/-- One step of `calculateChecksum` (part_004 lines 389-398):
`hash = ((hash << 5) - hash) + char; hash = hash & hash`.  Characters are
code points (the embedding's `Char`); no claim depends on the UTF-16
handling of astral characters. -/
def checksumStep (hash : Int) (c : Char) : Int :=
  toInt32 (toInt32 (hash * 32) - hash + c.toNat)

def base36Digit (n : Nat) : Char :=
  if n < 10 then Char.ofNat ('0'.toNat + n) else Char.ofNat ('a'.toNat + (n - 10))

def natToBase36Aux : Nat → Nat → List Char
  | 0, _ => []
  | _ + 1, 0 => []
  | fuel + 1, n => natToBase36Aux fuel (n / 36) ++ [base36Digit (n % 36)]

def natToBase36 (n : Nat) : List Char :=
  if n = 0 then ['0'] else natToBase36Aux 64 n

/-- `Number.prototype.toString(36)` for the 32-bit checksum values. -/
def intToBase36 (i : Int) : String :=
  if i < 0 then String.mk ('-' :: natToBase36 i.natAbs) else String.mk (natToBase36 i.toNat)

def calculateChecksum (data : List Char) : String :=
  intToBase36 (data.foldl checksumStep 0)

def base64Chars : List Char :=
  "ABCDEFGHIJKLMNOPQRSTUVWXYZabcdefghijklmnopqrstuvwxyz0123456789+/".toList

def b64Char (n : Nat) : Char := base64Chars.getD n 'A'

def base64Encode : List Nat → List Char
  | [] => []
  | [a] => [b64Char (a / 4), b64Char (a % 4 * 16), '=', '=']
  | [a, b] => [b64Char (a / 4), b64Char (a % 4 * 16 + b / 16), b64Char (b % 16 * 4), '=']
  | a :: b :: c :: rest =>
    b64Char (a / 4) :: b64Char (a % 4 * 16 + b / 16) ::
      b64Char (b % 16 * 4 + c / 64) :: b64Char (c % 64) :: base64Encode rest

inductive BackupError where
  | btoaNonLatin1
deriving DecidableEq, Repr

/-- `window.btoa`: throws `InvalidCharacterError` on any character outside
the Latin1 range, otherwise base64-encodes the bytes. -/
def btoa (s : List Char) : Except BackupError (List Char) :=
  if s.all (fun c => c.toNat ≤ 255) then .ok (base64Encode (s.map Char.toNat))
  else .error .btoaNonLatin1

structure CompressedBackupData where
  data : List Char
  originalSize : Nat
  compressedSize : Nat

/-- `BackupManager.compressData` (part_004 lines 400-409):
`btoa(JSON.stringify(data))` wrapped in the `_compressed` object. -/
def compressData (data : JSFields) : Except BackupError CompressedBackupData :=
  let json := stringifyFields data
  (btoa json).map (fun b => ⟨b, json.length, b.length⟩)

structure Backup where
  id : String
  createdAt : String
  btype : String
  size : Nat
  checksum : String
  bdata : CompressedBackupData
  compressed : Bool

/-- Core of `BackupManager.createBackup` (part_004 lines 19-104):
snapshot the four collections, serialize, compute size and checksum, then
compress (`compressionEnabled` is the constant `true`).  A throw inside
`compressData` propagates to the outer catch and `createBackup` fails;
persistence and retention-cap cleanup happen only after this point. -/
def createBackup (plants events posts : List JSValue) (settings : JSFields)
    (id now : String) (manual : Bool) : Except BackupError Backup :=
  let bdataFields : JSFields :=
    [("plants", .arr plants), ("events", .arr events),
     ("posts", .arr posts), ("settings", .obj settings)]
  let dataString := stringifyFields bdataFields
  match compressData bdataFields with
  | .error e => .error e
  | .ok cd =>
    .ok { id := id, createdAt := now, btype := if manual then "manual" else "automatic",
          size := dataString.length, checksum := calculateChecksum dataString,
          bdata := cd, compressed := true }

/-! ## Specification-side predicates and concrete fixtures -/

/-- Whether an item survives the filter stage of `query` (true when no
filter is active). -/
def filterKeep (q : QueryOptions) (item : JSValue) : Bool :=
  if q.filter.length > 0 then
    q.filter.all (fun kv => matchesFilter (getNestedValue item kv.1) kv.2)
  else true

/-- Whether an item survives the search stage of `query` (true when no
search is active). -/
def searchKeep (q : QueryOptions) (item : JSValue) : Bool :=
  match q.search with
  | some s =>
    if s ≠ "" ∧ q.searchFields.length > 0 then
      q.searchFields.any (fun field =>
        let fv := getNestedValue item field
        jsTruthy fv ∧ containsSub (toLowerStr s).toList (toLowerStr (jsToString fv)).toList)
    else true
  | none => true

/-- The ten operator keys recognized by `matchesFilter`. -/
def operatorKeys : List String :=
  ["$eq", "$ne", "$gt", "$gte", "$lt", "$lte", "$in", "$nin", "$regex", "$exists"]

/-- A character `JSON.stringify` emits verbatim. -/
def plainChar (c : Char) : Bool := 0x20 ≤ c.toNat ∧ c ≠ '"' ∧ c ≠ '\\'

/-- The serialized entity used to exhibit the compression round-trip
failure: a valid plant-sized record whose notes end in a character
followed by a digit. -/
def rleEntity : Entity := [("notes", .str (String.mk (List.replicate 998 'a') ++ "b2"))]

/-- What the run-length layer actually reconstructs from `rleEntity`. -/
def rleEntityRead : Entity := [("notes", .str (String.mk (List.replicate 998 'a') ++ "bb"))]

def isoTs : String := "2024-01-01T00:00:00.000Z"

/-- A queued mutation that has already failed twice. -/
def retryingItem : SyncItem :=
  { id := "sync_1", entityType := "Plant", operation := "update",
    data := [("id", .str "plant_1")], timestamp := "2024-01-01T00:00:00.000Z", retryCount := 2 }

/-- `retryingItem` after its third failed delivery. -/
def retryingItemFailed : SyncItem :=
  { retryingItem with retryCount := 3, lastAttempt := some "2024-01-01T00:05:00.000Z" }

/-- Local payload of the field-conflict scenario: the user-owned `status`
field differs from the server copy. -/
def conflictLocalData : JSFields :=
  [("id", .str "plant_1"), ("status", .str "דורש השקיה"), ("updatedAt", .str "2024-01-02T00:00:00.000Z")]

def conflictServerData : JSFields :=
  [("id", .str "plant_1"), ("status", .str "בריא"), ("updatedAt", .str "2024-01-02T00:00:01.000Z")]

def conflictItem : SyncItem :=
  { id := "sync_2", entityType := "Plant", operation := "update",
    data := conflictLocalData, timestamp := "2024-01-02T00:00:02.000Z" }

/-- A remote that reports a field conflict for the original mutation and
accepts the resubmitted merged record (recognizable by its restamped
timestamp). -/
def conflictDeliver : SyncItem → ServerResponse := fun it =>
  if it.timestamp == "2024-01-02T00:01:00.000Z" then .success none
  else .conflict "field_conflict" conflictServerData

/-- A plant entity used as an untouched bystander record. -/
def bystanderPlant : Entity :=
  spreadMerge (entityDefaults .Plant "plant_keep" isoTs) [("name", .str "בזיליקום")]

/-- No two queued items share an `(entityType, data.id, operation)` triple. -/
def UniqueTriples (queue : List SyncItem) : Prop :=
  queue.Pairwise (fun a b => sameTriple a b = false)

/-- Input data that violates the declared nested constraint
`careSchedule.properties.watering.min = 1`. -/
def nestedViolationData : Entity :=
  [("name", .str "עגבנייה"), ("careSchedule", .obj [("watering", .num 0)])]

def nestedViolationEntity : Entity :=
  spreadMerge (entityDefaults .Plant "plant_1" isoTs) nestedViolationData

/-- Data for a schema-valid plant. -/
def goodPlantData : Entity := [("name", .str "עגבנייה")]

def goodPlant : Entity := spreadMerge (entityDefaults .Plant "plant_9" isoTs) goodPlantData

def goodPlantPatched : Entity :=
  setField (spreadMerge goodPlant [("notes", .str "גדל יפה")]) "updatedAt" (.str isoTs)

/-! ## Helper lemmas -/

theorem isEmptyValue_of_empty (v : JSValue) (h : v = .undefined ∨ v = .null ∨ v = .str "") :
    isEmptyValue v = true := by
  rcases h with h | h | h <;> subst h <;> rfl

theorem filter_append_single {α : Type} (pred : α → Bool) (y : α) :
    ∀ l : List α, (∀ a ∈ l, pred a = false) → pred y = true →
      (l ++ [y]).filter pred = [y]
  | [], _, hy => by simp [hy]
  | a :: l, h, hy => by
    have ha := h a (by simp)
    simpa [ha] using filter_append_single pred y l (fun b hb => h b (by simp [hb])) hy

theorem mem_replaceFirstPlant (id : String) (e : Entity) :
    ∀ (plants : List Entity) (p : Entity), p ∈ replaceFirstPlant plants id e → p ∈ plants ∨ p = e
  | [], p, hp => by simp [replaceFirstPlant] at hp
  | a :: rest, p, hp => by
    by_cases ha : jsStrictEq (jsGet a "id") (.str id) = true
    · simp only [replaceFirstPlant, if_pos ha, List.mem_cons] at hp
      rcases hp with hp | hp
      · exact Or.inr hp
      · exact Or.inl (List.mem_cons_of_mem a hp)
    · simp only [replaceFirstPlant, if_neg ha, List.mem_cons] at hp
      rcases hp with hp | hp
      · exact Or.inl (by simp [hp])
      · rcases mem_replaceFirstPlant id e rest p hp with h | h
        · exact Or.inl (List.mem_cons_of_mem a h)
        · exact Or.inr h

/-! ## C10 -/

/-- C10 (confirmed): `validateField` treats `undefined`, `null` and the
empty string uniformly as a missing value — a required field yields
exactly `[required]` and a non-required field skips every remaining
constraint, so an optional field accepts the empty string whatever its
`minLength`, `pattern` or `enum` say. -/
theorem validateField_empty_uniform (schema : FieldSchema) (v : JSValue)
    (h : v = .undefined ∨ v = .null ∨ v = .str "") :
    validateField v schema = (if schema.required then [.required] else []) := by
  have he := isEmptyValue_of_empty v h
  cases hr : schema.required <;> simp [validateField, he, hr]

/-- Witness for C10: the empty string on a required field gives exactly the
required error, and on an optional field with a minimum length, a pattern
and an enum it gives no error at all. -/
theorem validateField_empty_uniform_witness :
    validateField (.str "")
        { type := some .string, required := true, minLength := some 3 } = [.required] ∧
    validateField (.str "")
        { type := some .string, required := false, minLength := some 3,
          pattern := some datePat, enum := some ["a", "b"] } = [] ∧
    validateField .null
        { type := some .string, required := true } = [.required] ∧
    validateField .undefined
        { type := some .number, required := false, min := some 5 } = [] :=
  ⟨validateField_empty_uniform _ _ (Or.inr (Or.inr rfl)),
   validateField_empty_uniform _ _ (Or.inr (Or.inr rfl)),
   validateField_empty_uniform _ _ (Or.inr (Or.inl rfl)),
   validateField_empty_uniform _ _ (Or.inl rfl)⟩

/-! ## C9 -/

/-- C9 (confirmed): a filter value that is a non-null, non-array object
containing none of the ten operator keys (the empty object included) makes
`matchesFilter` return `false` for every value, so such a filter selects no
records instead of acting as an equality match. -/
theorem matchesFilter_operatorless_object (f : JSFields)
    (h : ∀ k ∈ operatorKeys, isUndefined (jsGet f k) = true) :
    (∀ v : JSValue, matchesFilter v (.obj f) = false) ∧
    (∀ (data : List JSValue) (field : String), applyFilters data [(field, .obj f)] = []) := by
  have h1 := h "$eq" (by simp [operatorKeys])
  have h2 := h "$ne" (by simp [operatorKeys])
  have h3 := h "$gt" (by simp [operatorKeys])
  have h4 := h "$gte" (by simp [operatorKeys])
  have h5 := h "$lt" (by simp [operatorKeys])
  have h6 := h "$lte" (by simp [operatorKeys])
  have h7 := h "$in" (by simp [operatorKeys])
  have h8 := h "$nin" (by simp [operatorKeys])
  have h9 := h "$regex" (by simp [operatorKeys])
  have h10 := h "$exists" (by simp [operatorKeys])
  have hmf : ∀ v : JSValue, matchesFilter v (.obj f) = false := by
    intro v
    simp [matchesFilter, h1, h2, h3, h4, h5, h6, h7, h8, h9, h10]
  refine ⟨hmf, fun data field => ?_⟩
  apply List.filter_eq_nil_iff.mpr
  intro item _
  simp [hmf]

/-- Witness for C9: the empty object and an operator-free object select
nothing. -/
theorem matchesFilter_operatorless_object_witness :
    matchesFilter (.str "x") (.obj []) = false ∧
    applyFilters [.obj [("a", .num 1)], .obj []] [("a", .obj [("weird", .num 7)])] = [] :=
  ⟨(matchesFilter_operatorless_object [] (by decide)).1 _,
   (matchesFilter_operatorless_object [("weird", .num 7)] (by decide)).2 _ _⟩

/-! ## C2 -/

set_option maxRecDepth 20000

/-- C2 (code_bug): the transparent compression does not round-trip.  For
the entity `rleEntity` (serialized size 1012 ≥ threshold 1000) the stored
compressed record decompresses to the serialization of `rleEntityRead` —
`notes` ends in `"bb"` instead of `"b2"` — because run-length decoding
misreads the literal digit `2` as a repeat count. -/
theorem compress_roundtrip_fails :
    (stringifyFields rleEntity).length = 1012 ∧
    decompressedSerialization (compress rleEntity) = stringifyFields rleEntityRead ∧
    decompressedSerialization (compress rleEntity) ≠ stringifyFields rleEntity := by
  refine ⟨by decide, by decide, by decide⟩

/-! ## C4 -/

/-- Counterexample for C4: `deletePlant` on an id absent from the
collection reports success (`true`) instead of failing with a not-found
error. -/
theorem deletePlant_missing_reports_success :
    deletePlant [bystanderPlant] "plant_missing" = (.ok true, [bystanderPlant]) := rfl

/-- C4 (corrected): on an id absent from the collection `updatePlant`
fails with the not-found error and leaves the collection unchanged, but
`deletePlant` does not fail — it returns success with the collection
unchanged.  (`updateEvent`/`updatePost` and `deleteEvent`/`deletePost`
are structurally identical.) -/
theorem updatePlant_missing_notFound (plants : List Entity) (id : String)
    (updates : Entity) (now : String)
    (h : ∀ p ∈ plants, jsStrictEq (jsGet p "id") (.str id) = false) :
    updatePlant plants id updates now = (.error (.notFound id), plants) ∧
    deletePlant plants id = (.ok true, plants) := by
  constructor
  · have hf : findPlant plants id = none := by
      apply List.find?_eq_none.mpr
      intro p hp
      simp [h p hp]
    simp [updatePlant, hf]
  · simp only [deletePlant, Prod.mk.injEq]
    refine ⟨trivial, List.filter_eq_self.mpr ?_⟩
    intro p hp
    simp [h p hp]

/-- Witness for C4: a concrete collection without the requested id. -/
theorem updatePlant_missing_notFound_witness :
    updatePlant [bystanderPlant] "plant_missing" [("name", .str "x")] isoTs =
      (.error (.notFound "plant_missing"), [bystanderPlant]) ∧
    deletePlant [bystanderPlant] "plant_missing" = (.ok true, [bystanderPlant]) :=
  updatePlant_missing_notFound [bystanderPlant] "plant_missing" [("name", .str "x")] isoTs
    (by intro p hp; simp at hp; subst hp; rfl)

/-! ## C8 -/

theorem addToQueue_filter_triple (q : List SyncItem) (y : SyncItem)
    (hyy : sameTriple y y = true) :
    (addToQueue q y).filter (fun it => sameTriple it y) = [y] := by
  have hall : ∀ a ∈ q.filter (fun item => ¬sameTriple item y), sameTriple a y = false := by
    intro a ha
    simpa using List.of_mem_filter ha
  simp only [addToQueue]
  split
  · next hlen =>
    rw [List.drop_append_of_le_length (by simp [maxQueueSize])]
    exact filter_append_single _ y _ (fun a ha => hall a (List.mem_of_mem_drop ha)) hyy
  · exact filter_append_single _ y _ hall hyy

/-- C8 (confirmed): `addToQueue` preserves the at-most-one-item-per-triple
invariant, and enqueueing two mutations with the same triple leaves
exactly one queued item for that triple — the later one. -/
theorem addToQueue_dedup (queue : List SyncItem) (x y : SyncItem)
    (hq : UniqueTriples queue) (hxy : sameTriple x y = true)
    (hyy : sameTriple y y = true) :
    UniqueTriples (addToQueue queue x) ∧
    (addToQueue (addToQueue queue x) y).filter (fun it => sameTriple it y) = [y] := by
  refine ⟨?_, addToQueue_filter_triple _ y hyy⟩
  have hfil : (queue.filter (fun item => ¬sameTriple item x)).Pairwise
      (fun a b => sameTriple a b = false) := List.Pairwise.filter _ hq
  have happ : ((queue.filter (fun item => ¬sameTriple item x)) ++ [x]).Pairwise
      (fun a b => sameTriple a b = false) := by
    apply List.pairwise_append.mpr
    refine ⟨hfil, by simp, ?_⟩
    intro a ha b hb
    have hpa := List.of_mem_filter ha
    simp at hb
    subst hb
    simpa using hpa
  simp only [UniqueTriples, addToQueue]
  split
  · exact List.Pairwise.drop happ
  · exact happ

/-- Witness for C8: two updates to the same plant collapse to the later
one. -/
theorem addToQueue_dedup_witness :
    UniqueTriples (addToQueue [retryingItem] conflictItem) ∧
    (addToQueue (addToQueue [retryingItem] conflictItem) conflictItem).filter
        (fun it => sameTriple it conflictItem) = [conflictItem] :=
  addToQueue_dedup [retryingItem] conflictItem conflictItem
    (by simp [UniqueTriples]) (by decide) (by decide)

/-! ## C6 -/

theorem filterStage_eq (snapshot : List JSValue) (q : QueryOptions) :
    filterStage snapshot q = snapshot.filter (filterKeep q) := by
  by_cases hf : q.filter.length > 0
  · simp only [filterStage, if_pos hf, applyFilters]
    exact List.filter_congr (fun x _ => by simp [filterKeep, hf])
  · simp only [filterStage, if_neg hf]
    exact (List.filter_eq_self.mpr (fun a _ => by simp [filterKeep, hf])).symm

theorem searchStage_eq (l : List JSValue) (q : QueryOptions) :
    searchStage l q = l.filter (searchKeep q) := by
  cases hs : q.search with
  | none =>
    simp only [searchStage, hs]
    exact (List.filter_eq_self.mpr (fun a _ => by simp [searchKeep, hs])).symm
  | some s =>
    by_cases hc : s ≠ "" ∧ q.searchFields.length > 0
    · simp only [searchStage, hs, if_pos hc, applySearch]
      exact List.filter_congr (fun x _ => by simp [searchKeep, hs, hc])
    · simp only [searchStage, hs, if_neg hc]
      exact (List.filter_eq_self.mpr (fun a _ => by simp [searchKeep, hs, hc])).symm

/-- C6 (confirmed): `query` reports `totalCount` as the number of items
that survive the filter and search stages, before pagination; and the
spec's concrete instance — 25 items with `limit 10, offset 20` — returns
5 data items, `totalCount` 25 (not `data.length`), `hasMore` false,
`page` 3 and `totalPages` 3. -/
theorem query_totalCount_pre_pagination (snapshot : List JSValue) (q : QueryOptions) :
    (query snapshot q).totalCount =
      snapshot.countP (fun it => filterKeep q it && searchKeep q it) ∧
    ((query (List.replicate 25 (JSValue.obj [])) { limit := some 10, offset := 20 }).data.length = 5 ∧
     (query (List.replicate 25 (JSValue.obj [])) { limit := some 10, offset := 20 }).totalCount = 25 ∧
     (query (List.replicate 25 (JSValue.obj [])) { limit := some 10, offset := 20 }).hasMore = false ∧
     (query (List.replicate 25 (JSValue.obj [])) { limit := some 10, offset := 20 }).page = 3 ∧
     (query (List.replicate 25 (JSValue.obj [])) { limit := some 10, offset := 20 }).totalPages = 3) := by
  constructor
  · show (searchStage (filterStage snapshot q) q).length = _
    rw [filterStage_eq, searchStage_eq, List.filter_filter,
      List.countP_eq_length_filter]
    exact congrArg List.length
      (List.filter_congr (fun x _ => by rw [Bool.and_comm]))
  · exact ⟨by decide, by decide, by decide, by decide, by decide⟩

/-! ## C1 -/

/-- Counterexample for C1: `createPlant` accepts and persists an entity
whose `careSchedule.watering` is `0` although the Plant schema declares
`min: 1` for that nested property — `validateField` never descends into
nested `properties`, so a declared schema constraint is violated by a
persisted entity. -/
theorem createPlant_persists_nested_violation :
    createPlant nestedViolationData [] "plant_1" isoTs =
      (.ok nestedViolationEntity, [nestedViolationEntity]) ∧
    validateEntity nestedViolationEntity .Plant = none ∧
    ((JSValue.obj nestedViolationEntity).get "careSchedule").get "watering" = .num 0 ∧
    ((PlantSchema.properties.find? (fun kv => kv.1 == "careSchedule")).map
        (fun kv => (kv.2.properties.find? (fun p => p.1 == "watering")).map
          (fun p => p.2.min))) = some (some (some 1)) :=
  ⟨rfl, rfl, rfl, rfl⟩

/-- C1 (corrected): entity creation fails before any storage write, with
the store unchanged, exactly when `validateEntity` (which checks only
top-level field constraints) reports errors on the constructed entity;
entities that reach the store — through `createPlant` or `updatePlant` —
always satisfy `validateEntity`. -/
theorem createPlant_validation_gate (data : Entity) (plants : List Entity)
    (genId now : String) :
    (∀ errs, createEntity .Plant data genId now = .error errs →
      createPlant data plants genId now = (.error (.validation errs), plants)) ∧
    (∀ e plants2, createPlant data plants genId now = (.ok e, plants2) →
      validateEntity e .Plant = none ∧ plants2 = e :: plants) ∧
    (∀ id updates e plants2, updatePlant plants id updates now = (.ok e, plants2) →
      validateEntity e .Plant = none ∧ ∀ p ∈ plants2, p ∈ plants ∨ p = e) ∧
    (∀ id updates errs plants2,
      updatePlant plants id updates now = (.error errs, plants2) → plants2 = plants) := by
  refine ⟨?_, ?_, ?_, ?_⟩
  · intro errs h
    simp [createPlant, h]
  · intro e plants2 h
    cases hc : createEntity .Plant data genId now with
    | error e' => simp [createPlant, hc] at h
    | ok val =>
      simp only [createPlant, hc, Prod.mk.injEq, Except.ok.injEq] at h
      obtain ⟨rfl, rfl⟩ := h
      refine ⟨?_, rfl⟩
      simp only [createEntity] at hc
      cases hv : validateEntity (spreadMerge (entityDefaults .Plant genId now) data) .Plant with
      | some errors => rw [hv] at hc; simp at hc
      | none => rw [hv] at hc; simp only [Except.ok.injEq] at hc; rw [← hc]; exact hv
  · intro id updates e plants2 h
    cases hfind : findPlant plants id with
    | none => simp [updatePlant, hfind] at h
    | some existing =>
      cases hu : updateEntity existing updates .Plant now with
      | error e' => simp [updatePlant, hfind, hu] at h
      | ok val =>
        simp only [updatePlant, hfind, hu, Prod.mk.injEq, Except.ok.injEq] at h
        obtain ⟨rfl, rfl⟩ := h
        constructor
        · simp only [updateEntity] at hu
          cases hv : validateEntity
              (setField (spreadMerge existing updates) "updatedAt" (.str now)) .Plant with
          | some errors => rw [hv] at hu; simp at hu
          | none => rw [hv] at hu; simp only [Except.ok.injEq] at hu; rw [← hu]; exact hv
        · exact fun p hp => mem_replaceFirstPlant id val plants p hp
  · intro id updates errs plants2 h
    cases hfind : findPlant plants id with
    | none =>
      simp only [updatePlant, hfind, Prod.mk.injEq] at h
      exact h.2.symm
    | some existing =>
      cases hu : updateEntity existing updates .Plant now with
      | error e' =>
        simp only [updatePlant, hfind, hu, Prod.mk.injEq] at h
        exact h.2.symm
      | ok val => simp [updatePlant, hfind, hu] at h

/-- Witness for C1: empty data fails validation (default empty `name`) and
leaves the store untouched; valid data is persisted and validates; an
update persists only the re-validated entity. -/
theorem createPlant_validation_gate_witness :
    createPlant [] [] "plant_1" isoTs =
      (.error (.validation [("name", [.required])]), []) ∧
    (validateEntity goodPlant .Plant = none ∧ [goodPlant] = goodPlant :: []) ∧
    (validateEntity goodPlantPatched .Plant = none ∧
      ∀ p ∈ [goodPlantPatched], p ∈ [goodPlant] ∨ p = goodPlantPatched) :=
  ⟨(createPlant_validation_gate [] [] "plant_1" isoTs).1 _ rfl,
   (createPlant_validation_gate goodPlantData [] "plant_9" isoTs).2.1 goodPlant [goodPlant] rfl,
   (createPlant_validation_gate goodPlantData [goodPlant] "plant_9" isoTs).2.2.1
      "plant_9" [("notes", .str "גדל יפה")] goodPlantPatched [goodPlantPatched] rfl⟩

/-! ## C3 -/

/-- C3 (code_bug): a queued mutation whose delivery keeps failing reaches
the retry maximum and is appended to conflict storage as the bare sync
item — `addToConflicts` has one parameter, so the
`'max_retries_exceeded'` reason passed at the call site is discarded —
while the drain filter `retryCount >= maxRetries || !processed` keeps the
very same item in the queue. -/
theorem maxRetries_item_kept_and_reasonless :
    processSyncQueue 5 (fun _ => .failure) "2024-01-01T00:05:00.000Z"
        { queue := [retryingItem], conflicts := [] } =
      { queue := [retryingItemFailed], conflicts := [.rawItem retryingItemFailed] } := rfl

/-! ## C5 -/

theorem jsGet_map_replace_self (key : String) (v : JSValue) :
    ∀ o : JSFields, o.any (fun kv => kv.1 == key) = true →
      jsGet (o.map (fun kv => if kv.1 == key then (key, v) else kv)) key = v
  | [], h => by simp at h
  | kv :: rest, h => by
    cases hh : kv.1 == key with
    | true => simp [jsGet, hh]
    | false =>
      have hrest : rest.any (fun kv => kv.1 == key) = true := by
        simpa [hh] using h
      simpa [jsGet, hh] using jsGet_map_replace_self key v rest hrest

theorem jsGet_map_replace_ne (key : String) (v : JSValue) (k : String) (hk : k ≠ key) :
    ∀ o : JSFields,
      jsGet (o.map (fun kv => if kv.1 == key then (key, v) else kv)) k = jsGet o k
  | [] => rfl
  | kv :: rest => by
    have hkey : (key == k) = false := beq_eq_false_iff_ne.mpr (Ne.symm hk)
    cases hh : kv.1 == key with
    | true =>
      have hkv : (kv.1 == k) = false := by
        rw [eq_of_beq hh]
        exact hkey
      simpa [jsGet, hh, hkey, hkv] using jsGet_map_replace_ne key v k hk rest
    | false =>
      cases hk2 : kv.1 == k with
      | true => simp [jsGet, hh, hk2]
      | false => simpa [jsGet, hh, hk2] using jsGet_map_replace_ne key v k hk rest

theorem jsGet_append_single (key : String) (v : JSValue) (k : String) :
    ∀ o : JSFields, (∀ kv ∈ o, (kv.1 == k) = false) →
      jsGet (o ++ [(key, v)]) k = if k = key then v else .undefined
  | [], _ => by
    by_cases hk : k = key
    · simp [jsGet, hk]
    · simp [jsGet, beq_eq_false_iff_ne.mpr (Ne.symm hk), hk]
  | kv :: rest, h => by
    have hkv := h kv (by simp)
    simpa [jsGet, hkv] using
      jsGet_append_single key v k rest (fun a ha => h a (by simp [ha]))

theorem jsGet_append_single_ne (key : String) (v : JSValue) (k : String) (hk : k ≠ key) :
    ∀ o : JSFields, jsGet (o ++ [(key, v)]) k = jsGet o k
  | [] => by simp [jsGet, beq_eq_false_iff_ne.mpr (Ne.symm hk)]
  | kv :: rest => by
    cases hkv : kv.1 == k with
    | true => simp [jsGet, hkv]
    | false => simpa [jsGet, hkv] using jsGet_append_single_ne key v k hk rest

/-- Property lookup after `setField`: the assigned key reads back the
assigned value, every other key is untouched. -/
theorem jsGet_setField (o : JSFields) (key : String) (v : JSValue) (k : String) :
    jsGet (setField o key v) k = if k = key then v else jsGet o k := by
  by_cases hk : k = key
  · subst hk
    rw [if_pos rfl]
    unfold setField
    split
    · next hany => exact jsGet_map_replace_self k v o hany
    · next hany =>
      have hall : ∀ kv ∈ o, (kv.1 == k) = false := by
        intro kv hkv
        cases hpred : kv.1 == k with
        | true => exact absurd (List.any_eq_true.mpr ⟨kv, hkv, hpred⟩) hany
        | false => rfl
      rw [jsGet_append_single k v k o hall, if_pos rfl]
  · simp only [if_neg hk]
    unfold setField
    split
    · exact jsGet_map_replace_ne key v k hk o
    · exact jsGet_append_single_ne key v k hk o

theorem syncSingleItem_resolved_success (fuel : Nat) (deliver : SyncItem → ServerResponse)
    (now : String) (item : SyncItem) (serverData : JSFields) (st : SyncState)
    (d : Option JSFields)
    (h1 : deliver item = .conflict "field_conflict" serverData)
    (h2 : deliver (resolvedItemOf item serverData now) = .success d) :
    syncSingleItem (fuel + 2) deliver now item st = (false, item, st) := by
  simp only [resolvedItemOf] at h2
  simp [syncSingleItem, h1, h2, attemptAutoResolution]

theorem processSyncQueue_resolved_success (fuel : Nat) (deliver : SyncItem → ServerResponse)
    (now : String) (item : SyncItem) (serverData : JSFields) (cs : List ConflictEntry)
    (d : Option JSFields)
    (hproc : item.processed = false)
    (h1 : deliver item = .conflict "field_conflict" serverData)
    (h2 : deliver (resolvedItemOf item serverData now) = .success d) :
    processSyncQueue (fuel + 2) deliver now { queue := [item], conflicts := cs } =
      { queue := [item], conflicts := cs } := by
  simp [processSyncQueue, sortByCmp, insertSorted, processItems, syncSingleItemWithDelay,
    syncSingleItem_resolved_success fuel deliver now item serverData _ d h1 h2, hproc]

theorem mergeConflicting_jsGet (localData serverData : JSFields) (k : String) :
    jsGet (mergeConflictingData localData serverData) k =
      if k = "updatedAt" then jsGet localData "updatedAt"
      else if (k = "notes" ∨ k = "status" ∨ k = "name") ∧
          ¬isUndefined (jsGet localData k) ∧
          ¬jsStrictEq (jsGet localData k) (jsGet serverData k)
        then jsGet localData k
        else jsGet serverData k := by
  have peel : ∀ (m : JSFields) (field : String), k ≠ field →
      jsGet (if ¬isUndefined (jsGet localData field) ∧
               ¬jsStrictEq (jsGet localData field) (jsGet serverData field)
             then setField m field (jsGet localData field) else m) k = jsGet m k := by
    intro m field hne
    split
    · rw [jsGet_setField, if_neg hne]
    · rfl
  have grab : ∀ m : JSFields, jsGet m k = jsGet serverData k →
      jsGet (if ¬isUndefined (jsGet localData k) ∧
               ¬jsStrictEq (jsGet localData k) (jsGet serverData k)
             then setField m k (jsGet localData k) else m) k =
        if ¬isUndefined (jsGet localData k) ∧ ¬jsStrictEq (jsGet localData k) (jsGet serverData k)
        then jsGet localData k else jsGet serverData k := by
    intro m hm
    split
    · rw [jsGet_setField, if_pos rfl]
    · exact hm
  simp only [mergeConflictingData, List.foldl]
  rw [jsGet_setField]
  by_cases hup : k = "updatedAt"
  · simp [hup]
  · simp only [if_neg hup]
    by_cases hname : k = "name"
    · subst hname
      rw [grab _ (by rw [peel _ "status" (by decide), peel _ "notes" (by decide)])]
      by_cases hc : ¬isUndefined (jsGet localData "name") ∧
          ¬jsStrictEq (jsGet localData "name") (jsGet serverData "name")
      · rw [if_pos hc, if_pos ⟨Or.inr (Or.inr rfl), hc.1, hc.2⟩]
      · rw [if_neg hc, if_neg (fun hcc => hc ⟨hcc.2.1, hcc.2.2⟩)]
    · by_cases hstatus : k = "status"
      · subst hstatus
        rw [peel _ "name" (by decide), grab _ (by rw [peel _ "notes" (by decide)])]
        by_cases hc : ¬isUndefined (jsGet localData "status") ∧
            ¬jsStrictEq (jsGet localData "status") (jsGet serverData "status")
        · rw [if_pos hc, if_pos ⟨Or.inr (Or.inl rfl), hc.1, hc.2⟩]
        · rw [if_neg hc, if_neg (fun hcc => hc ⟨hcc.2.1, hcc.2.2⟩)]
      · by_cases hnotes : k = "notes"
        · subst hnotes
          rw [peel _ "name" (by decide), peel _ "status" (by decide), grab _ rfl]
          by_cases hc : ¬isUndefined (jsGet localData "notes") ∧
              ¬jsStrictEq (jsGet localData "notes") (jsGet serverData "notes")
          · rw [if_pos hc, if_pos ⟨Or.inl rfl, hc.1, hc.2⟩]
          · rw [if_neg hc, if_neg (fun hcc => hc ⟨hcc.2.1, hcc.2.2⟩)]
        · rw [peel _ "name" hname, peel _ "status" hstatus, peel _ "notes" hnotes,
            if_neg (fun hcc => by
              rcases hcc.1 with h | h | h
              exacts [hnotes h, hstatus h, hname h])]

/-- Counterexample for C5: after the server reports a field conflict and
accepts the resubmitted merged record, the original mutation is still in
the sync queue (no conflict record is stored, but the claim also asserts
the queue is left empty, which fails because `syncSingleItem` returns
`false` after handling a conflict). -/
theorem fieldConflict_item_stays_queued :
    processSyncQueue 5 conflictDeliver "2024-01-02T00:01:00.000Z"
        { queue := [conflictItem], conflicts := [] } =
      { queue := [conflictItem], conflicts := [] } ∧
    conflictItem ∈ (processSyncQueue 5 conflictDeliver "2024-01-02T00:01:00.000Z"
        { queue := [conflictItem], conflicts := [] }).queue :=
  ⟨rfl, List.mem_singleton_self _⟩

/-- C5 (corrected): automatic field-conflict resolution merges the server
record as base, overriding the allow-listed user-owned fields
(`notes`, `status`, `name`) with defined, differing local values and
keeping the local `updatedAt`; when the merged record is delivered
successfully nothing is added to ConflictRecord storage and the sync
state is unchanged — but precisely because `syncSingleItem` still reports
failure, the original mutation remains in the sync queue. -/
theorem fieldConflict_merge_resolution :
    (∀ (localData serverData : JSFields) (k : String),
      jsGet (mergeConflictingData localData serverData) k =
        if k = "updatedAt" then jsGet localData "updatedAt"
        else if (k = "notes" ∨ k = "status" ∨ k = "name") ∧
            ¬isUndefined (jsGet localData k) ∧
            ¬jsStrictEq (jsGet localData k) (jsGet serverData k)
          then jsGet localData k
          else jsGet serverData k) ∧
    (∀ (fuel : Nat) (deliver : SyncItem → ServerResponse) (now : String) (item : SyncItem)
        (serverData : JSFields) (st : SyncState) (d : Option JSFields),
      deliver item = .conflict "field_conflict" serverData →
      deliver (resolvedItemOf item serverData now) = .success d →
      syncSingleItem (fuel + 2) deliver now item st = (false, item, st)) ∧
    (∀ (fuel : Nat) (deliver : SyncItem → ServerResponse) (now : String) (item : SyncItem)
        (serverData : JSFields) (cs : List ConflictEntry) (d : Option JSFields),
      item.processed = false →
      deliver item = .conflict "field_conflict" serverData →
      deliver (resolvedItemOf item serverData now) = .success d →
      processSyncQueue (fuel + 2) deliver now { queue := [item], conflicts := cs } =
        { queue := [item], conflicts := cs }) :=
  ⟨mergeConflicting_jsGet,
   fun fuel deliver now item serverData st d h1 h2 =>
     syncSingleItem_resolved_success fuel deliver now item serverData st d h1 h2,
   fun fuel deliver now item serverData cs d hproc h1 h2 =>
     processSyncQueue_resolved_success fuel deliver now item serverData cs d hproc h1 h2⟩

/-- Witness for C5: the two-client status-conflict scenario of the spec,
with the local `status` retained by the merge and the state unchanged
after the merged record is accepted. -/
theorem fieldConflict_merge_resolution_witness :
    jsGet (mergeConflictingData conflictLocalData conflictServerData) "status" =
      jsGet conflictLocalData "status" ∧
    syncSingleItem 5 conflictDeliver "2024-01-02T00:01:00.000Z" conflictItem
        { queue := [], conflicts := [] } =
      (false, conflictItem, { queue := [], conflicts := [] }) ∧
    processSyncQueue 5 conflictDeliver "2024-01-02T00:01:00.000Z"
        { queue := [conflictItem], conflicts := [] } =
      { queue := [conflictItem], conflicts := [] } :=
  ⟨by
    rw [fieldConflict_merge_resolution.1 conflictLocalData conflictServerData "status",
      if_neg (by decide), if_pos ⟨Or.inr (Or.inl rfl), by decide, by decide⟩],
   fieldConflict_merge_resolution.2.1 3 conflictDeliver _ conflictItem conflictServerData _ none
     rfl rfl,
   fieldConflict_merge_resolution.2.2 3 conflictDeliver _ conflictItem conflictServerData [] none
     rfl rfl rfl⟩

/-! ## C7 -/

theorem escapeChar_plain (c : Char) (h : plainChar c = true) : escapeChar c = [c] := by
  simp only [plainChar, decide_eq_true_eq] at h
  obtain ⟨h1, h2, h3⟩ := h
  have e8 : c ≠ '\x08' := by intro he; subst he; exact absurd h1 (by decide)
  have e9 : c ≠ '\x09' := by intro he; subst he; exact absurd h1 (by decide)
  have ea : c ≠ '\x0a' := by intro he; subst he; exact absurd h1 (by decide)
  have ec : c ≠ '\x0c' := by intro he; subst he; exact absurd h1 (by decide)
  have ed : c ≠ '\x0d' := by intro he; subst he; exact absurd h1 (by decide)
  have hlt : ¬(c.toNat < 0x20) := by omega
  simp [escapeChar, h2, h3, e8, e9, ea, ec, ed, hlt]

theorem mem_foldr_escape (c : Char) (hc : escapeChar c = [c]) :
    ∀ (l t : List Char), c ∈ l → c ∈ l.foldr (fun ch acc => escapeChar ch ++ acc) t
  | [], _, h => absurd h (by simp)
  | d :: l, t, h => by
    simp only [List.foldr]
    rcases List.mem_cons.mp h with h | h
    · subst h
      rw [hc]
      simp
    · exact List.mem_append_right _ (mem_foldr_escape c hc l t h)

theorem mem_quoteJS (c : Char) (s : String) (hmem : c ∈ s.toList)
    (hc : escapeChar c = [c]) : c ∈ quoteJS s :=
  List.mem_cons_of_mem _ (mem_foldr_escape c hc s.toList ['"'] hmem)

theorem mem_joinComma (c : Char) (part : List Char) :
    ∀ parts : List (List Char), part ∈ parts → c ∈ part → c ∈ joinComma parts
  | [], hp, _ => absurd hp (by simp)
  | [p], hp, hc => by
    simp only [List.mem_singleton] at hp
    subst hp
    simpa [joinComma] using hc
  | p :: q :: rest, hp, hc => by
    simp only [joinComma]
    rcases List.mem_cons.mp hp with h | h
    · subst h
      exact List.mem_append_left _ hc
    · exact List.mem_append_right _
        (List.mem_cons_of_mem _ (mem_joinComma c part (q :: rest) h hc))

theorem mem_jstringifyProps (k : String) (v : JSValue) (sv : List Char)
    (hv : jstringifyL v = some sv) :
    ∀ fs : JSFields, (k, v) ∈ fs → (quoteJS k ++ ':' :: sv) ∈ jstringifyProps fs
  | [], h => absurd h (by simp)
  | kv :: fs, h => by
    rcases List.mem_cons.mp h with h | h
    · subst h
      simp only [jstringifyProps, hv]
      exact List.mem_cons_self _ _
    · cases hkv : jstringifyL kv.2 with
      | some sv2 =>
        simp only [jstringifyProps, hkv]
        exact List.mem_cons_of_mem _ (mem_jstringifyProps k v sv hv fs h)
      | none =>
        simp only [jstringifyProps, hkv]
        exact mem_jstringifyProps k v sv hv fs h

theorem mem_stringifyFields (c : Char) (k : String) (v : JSValue) (sv : List Char)
    (hv : jstringifyL v = some sv) (fs : JSFields) (hmem : (k, v) ∈ fs)
    (hc : c ∈ sv) : c ∈ stringifyFields fs := by
  have hpart := mem_jstringifyProps k v sv hv fs hmem
  have hjoin : c ∈ joinComma (jstringifyProps fs) :=
    mem_joinComma c _ (jstringifyProps fs) hpart
      (List.mem_append_right _ (List.mem_cons_of_mem _ hc))
  show c ∈ lbrace :: joinComma (jstringifyProps fs) ++ [rbrace]
  exact List.mem_cons_of_mem _ (List.mem_append_left _ hjoin)

theorem validateSchema_none_field (data : JSFields) (schema : EntitySchema)
    (h : validateSchema data schema = none) :
    ∀ kv ∈ schema.properties, validateField (jsGet data kv.1) kv.2 = [] := by
  intro kv hkv
  by_cases hv : (validateField (jsGet data kv.1) kv.2).isEmpty = true
  · exact List.isEmpty_iff.mp hv
  · exfalso
    have hm : (kv.1, validateField (jsGet data kv.1) kv.2) ∈
        schema.properties.filterMap (fun kv =>
          if (validateField (jsGet data kv.1) kv.2).isEmpty then none
          else some (kv.1, validateField (jsGet data kv.1) kv.2)) :=
      List.mem_filterMap.mpr ⟨kv, hkv, by simp [hv]⟩
    simp only [validateSchema] at h
    split at h
    · split at h
      · next hempty =>
        rw [List.isEmpty_iff, List.append_nil] at hempty
        rw [hempty] at hm
        exact absurd hm (by simp)
      · simp at h
    · split at h
      · next hempty => simp at hempty
      · simp at h

theorem notif_constraints (v : JSValue)
    (h : validateField v notifFieldSchema = []) :
    ∃ s, v = .str s ∧ s ∈ (["הכל", "רק השקיה", "רק דישון", "ללא התראות"] : List String) := by
  cases v with
  | undefined => simp [validateField, notifFieldSchema, isEmptyValue] at h
  | null => simp [validateField, notifFieldSchema, isEmptyValue] at h
  | bool b => simp [validateField, notifFieldSchema, isEmptyValue, jsTypeofStr] at h
  | num n => simp [validateField, notifFieldSchema, isEmptyValue, jsTypeofStr] at h
  | arr xs => simp [validateField, notifFieldSchema, isEmptyValue, jsTypeofStr] at h
  | obj fs => simp [validateField, notifFieldSchema, isEmptyValue, jsTypeofStr] at h
  | str s =>
    refine ⟨s, rfl, ?_⟩
    by_cases hs : s = ""
    · simp [validateField, notifFieldSchema, isEmptyValue, hs] at h
    · simp [validateField, notifFieldSchema, isEmptyValue, hs, jsTypeofStr] at h
      simp only [List.mem_cons, List.not_mem_nil, or_false]
      tauto

theorem hebrew_enum_char (s : String)
    (hs : s ∈ (["הכל", "רק השקיה", "רק דישון", "ללא התראות"] : List String)) :
    ∃ c ∈ s.toList, plainChar c = true ∧ 255 < c.toNat := by
  simp only [List.mem_cons, List.not_mem_nil, or_false] at hs
  rcases hs with rfl | rfl | rfl | rfl
  · exact ⟨'ה', by decide, by decide, by decide⟩
  · exact ⟨'ר', by decide, by decide, by decide⟩
  · exact ⟨'ר', by decide, by decide, by decide⟩
  · exact ⟨'ל', by decide, by decide, by decide⟩

theorem mem_of_jsGet (k : String) (v : JSValue) (hne : v ≠ .undefined) :
    ∀ fs : JSFields, jsGet fs k = v → (k, v) ∈ fs
  | [], h => absurd h.symm hne
  | kv :: rest, h => by
    obtain ⟨k1, v1⟩ := kv
    cases hkv : k1 == k with
    | true =>
      simp only [jsGet, hkv, if_true] at h
      rw [← eq_of_beq hkv, ← h]
      exact List.mem_cons_self _ _
    | false =>
      simp only [jsGet, hkv, if_false] at h
      exact List.mem_cons_of_mem _ (mem_of_jsGet k v hne rest h)

/-- C7 (code_bug): `createBackup` can never produce a verifiable backup.
Every schema-valid settings entity carries a Hebrew `notif` value, so the
serialized payload contains a character outside the Latin1 range and
`btoa` — used by `compressData` as the "compression" — throws, which the
outer catch turns into a backup-creation failure, whatever the plant,
event and post collections are. -/
theorem createBackup_always_fails (plants events posts : List JSValue)
    (settings : JSFields) (hvalid : validateEntity settings .Settings = none)
    (id now : String) (manual : Bool) :
    createBackup plants events posts settings id now manual = .error .btoaNonLatin1 := by
  have hnotif : validateField (jsGet settings "notif") notifFieldSchema = [] :=
    validateSchema_none_field settings SettingsSchema hvalid ("notif", notifFieldSchema)
      (by simp [SettingsSchema])
  obtain ⟨s, hv, hs⟩ := notif_constraints _ hnotif
  obtain ⟨c, hcmem, hcplain, hcbig⟩ := hebrew_enum_char s hs
  have hsettings_mem : ("notif", JSValue.str s) ∈ settings :=
    mem_of_jsGet "notif" (.str s) (by simp) settings hv
  have h2 : c ∈ stringifyFields settings :=
    mem_stringifyFields c "notif" (.str s) (quoteJS s) rfl settings hsettings_mem
      (mem_quoteJS c s hcmem (escapeChar_plain c hcplain))
  have hobj : jstringifyL (.obj settings) = some (stringifyFields settings) := rfl
  have h3 : c ∈ stringifyFields
      [("plants", .arr plants), ("events", .arr events),
       ("posts", .arr posts), ("settings", .obj settings)] :=
    mem_stringifyFields c "settings" (.obj settings) (stringifyFields settings) hobj _
      (by simp) h2
  have hall : (stringifyFields
      [("plants", .arr plants), ("events", .arr events),
       ("posts", .arr posts), ("settings", .obj settings)]).all
        (fun ch => ch.toNat ≤ 255) = false := by
    cases hb : (stringifyFields
        [("plants", .arr plants), ("events", .arr events),
         ("posts", .arr posts), ("settings", .obj settings)]).all
          (fun ch => ch.toNat ≤ 255) with
    | false => rfl
    | true =>
      have hle := List.all_eq_true.mp hb c h3
      simp only [decide_eq_true_eq] at hle
      omega
  simp [createBackup, compressData, btoa, hall, Except.map]

/-- Witness for C7: the default settings entity built by `createEntity`
is schema-valid, and backup creation on it fails. -/
theorem createBackup_always_fails_witness :
    validateEntity (entityDefaults .Settings "x" isoTs) .Settings = none ∧
    createBackup [] [] [] (entityDefaults .Settings "x" isoTs) "backup_1" isoTs true =
      .error .btoaNonLatin1 :=
  ⟨by decide,
   createBackup_always_fails [] [] [] (entityDefaults .Settings "x" isoTs)
     (by decide) "backup_1" isoTs true⟩

end HydroGarden
